import Mathlib

/-!
Verification development for the kindling network analyzer
(`collector/pkg/component/analyzer/network`) and the otelexporter
Prometheus server.  The Go sources are shallowly embedded as executable
Lean definitions; machine integers are modelled as `Nat`/`Int` (all
arithmetic the embedded code performs stays far from 64-bit overflow),
byte slices as `List Nat`, fallible code as `Option`, and the concurrent
maps as association lists transformed by explicit state passing.
Definitions whose Go source lives outside the four embedded files
(the `messagePairs` methods, the parser-factory counters, config getters)
are reconstructed from the specification and marked
`Modelled from the spec:` in their doc comments.
-/

namespace Kindling

/-- A kernel-captured socket event; only the fields the embedded analyzer
logic reads are retained (`model.KindlingEvent` accessors `GetPid`,
`GetFd`, `GetSport`, `GetDport`, `Timestamp`, `GetData`). -/
structure Event where
  pid : Nat
  fd : Nat
  sport : Nat
  dport : Nat
  timestamp : Nat
  data : List Nat
deriving DecidableEq

/-- Modelled from the spec: the TCP flow identity is `(pid, fd)`
(`getMessagePairKey` / `messagePairs.getKey`). -/
structure FlowKey where
  pid : Nat
  fd : Nat
deriving DecidableEq

/-- Modelled from the spec: the `events` payload buffer — the ordered
capture of the events merged into one direction of a flow, the source
port recorded at creation (read by `IsSportChanged`), and the
concatenated payload bytes capped at `maxPayloadLength`.  The buffer is
nonempty by construction (`newEvents`). -/
structure Events where
  event : Event
  rest : List Event
  sport : Nat
  data : List Nat
deriving DecidableEq

/-- Modelled from the spec: `newEvents(evt, maxPayloadLength)` starts a
buffer with one event, recording its sport and at most `maxPayloadLength`
payload bytes. -/
def newEvents (evt : Event) (maxPayloadLength : Nat) : Events :=
  ⟨evt, [], evt.sport, evt.data.take maxPayloadLength⟩

/-- Number of events held by the buffer (`events.size()`). -/
def Events.size (e : Events) : Nat :=
  1 + e.rest.length

/-- The i-th event of the buffer (`events.getEvent(i)`); out-of-range
indices (which the Go code never passes) default to the first event. -/
def Events.getEvent (e : Events) (i : Nat) : Event :=
  (e.event :: e.rest).getD i e.event

/-- Modelled from the spec: appending an event updates metadata and keeps
payload bytes only up to the `maxPayloadLength` cap. -/
def Events.mergeEvent (e : Events) (evt : Event) (cap : Nat) : Events :=
  ⟨e.event, e.rest ++ [evt], e.sport, e.data ++ evt.data.take (cap - e.data.length)⟩

/-- Timestamp of the last event merged into the buffer. -/
def Events.lastTimestamp (e : Events) : Nat :=
  (e.rest.getLastD e.event).timestamp

/-- Modelled from the spec: `IsSportChanged` — the buffer records the
source port at creation, and a new event arriving with a different sport
signals fd reuse. -/
def Events.isSportChanged (e : Events) (evt : Event) : Bool :=
  e.sport ≠ evt.sport

/-- Modelled from the spec: putting a whole request buffer back in front
of an existing one (`putRequestBack` re-inserts the `HttpContinue`
request so the continuation is matched against it). -/
def Events.prependAll (a b : Events) : Events :=
  ⟨a.event, a.rest ++ b.event :: b.rest, a.sport, a.data ++ b.data⟩

/-- Conntrack DNAT result (`conntracker.NatTuple`), carried abstractly. -/
structure NatTuple where
  replSrcIP : String
  replSrcPort : Nat
deriving DecidableEq

/-- Modelled from the spec: the FlowState (`messagePairs`) — optional
connect/request/response buffers, the conntrack tuple, the single-shot
`sent_once` latch, and the snaplen cap. -/
structure MessagePairs where
  connects : Option Events
  requests : Option Events
  responses : Option Events
  natTuple : Option NatTuple
  sentOnce : Bool
  maxPayloadLength : Nat
deriving DecidableEq

/-- Modelled from the spec: `checkSend` is a single-shot atomic
compare-and-swap on `sent_once`; it returns whether this caller won the
latch, and the flag never returns to `false`. -/
def MessagePairs.checkSend (mps : MessagePairs) : Bool × MessagePairs :=
  if mps.sentOnce then (false, mps) else (true, { mps with sentOnce := true })

/-- Modelled from the spec: `messagePairs.getKey` — the `(pid, fd)` key,
read from the first event of the state (connects, then requests, then
responses). -/
def MessagePairs.getKey (mps : MessagePairs) : FlowKey :=
  match mps.connects with
  | some c => ⟨c.event.pid, c.event.fd⟩
  | none =>
    match mps.requests with
    | some r => ⟨r.event.pid, r.event.fd⟩
    | none =>
      match mps.responses with
      | some r => ⟨r.event.pid, r.event.fd⟩
      | none => ⟨0, 0⟩

/-- Modelled from the spec: `messagePairs.getPort` — the destination port
of the state's first event. -/
def MessagePairs.getPort (mps : MessagePairs) : Nat :=
  match mps.connects with
  | some c => c.event.dport
  | none =>
    match mps.requests with
    | some r => r.event.dport
    | none =>
      match mps.responses with
      | some r => r.event.dport
      | none => 0

/-- Modelled from the spec: `messagePairs.getTimeoutTs` — the timestamp
of the state's last event (`idle = now_sec - last_event_sec`), `0` when
the state holds no events. -/
def MessagePairs.getTimeoutTs (mps : MessagePairs) : Nat :=
  match mps.responses with
  | some r => r.lastTimestamp
  | none =>
    match mps.requests with
    | some r => r.lastTimestamp
    | none =>
      match mps.connects with
      | some c => c.lastTimestamp
      | none => 0

/-- Modelled from the spec: `mergeRequest` appends the event to the
request buffer (creating it after a connect-only state), bounded by
snaplen. -/
def MessagePairs.mergeRequest (mps : MessagePairs) (evt : Event) : MessagePairs :=
  match mps.requests with
  | none => { mps with requests := some (newEvents evt mps.maxPayloadLength) }
  | some r => { mps with requests := some (r.mergeEvent evt mps.maxPayloadLength) }

/-- Modelled from the spec: `putRequestBack` re-inserts a request buffer
in front of whatever requests the state currently holds. -/
def MessagePairs.putRequestBack (mps : MessagePairs) (reqs : Events) : MessagePairs :=
  match mps.requests with
  | none => { mps with requests := some reqs }
  | some r => { mps with requests := some (reqs.prependAll r) }

/-! ### The `requestMonitor` concurrent map

`sync.Map` keyed by `FlowKey`, embedded as an association list mutated by
explicit state passing (the router is single-threaded, so event handling
sees the map sequentially). -/

/-- The `requestMonitor` map. -/
abbrev Monitor := List (FlowKey × MessagePairs)

/-- Embeds `requestMonitor.Load`. -/
def mapLoad : Monitor → FlowKey → Option MessagePairs
  | [], _ => none
  | kv :: rest, k => if kv.1 = k then some kv.2 else mapLoad rest k

/-- Embeds `requestMonitor.Store` (replaces the binding or appends a fresh one). -/
def mapStore : Monitor → FlowKey → MessagePairs → Monitor
  | [], k, v => [(k, v)]
  | kv :: rest, k, v => if kv.1 = k then (k, v) :: rest else kv :: mapStore rest k v

/-- Embeds `requestMonitor.Delete`. -/
def mapDelete : Monitor → FlowKey → Monitor
  | [], _ => []
  | kv :: rest, k => if kv.1 = k then rest else kv :: mapDelete rest k

/-! ### C9: `getSnaplenEnv` -/

/-- Digit run of Go's integer parsing: `none` unless the characters are
one or more ASCII digits. -/
def parseDigits : List Char → Option Nat
  | [] => none
  | cs => cs.foldlM (fun acc c => if c.isDigit then some (acc * 10 + (c.toNat - 48)) else none) 0

/-- Embeds Go `strconv.Atoi` (= `ParseInt(s, 10, 0)` on a 64-bit platform):
an optional `+`/`-` sign followed by one or more ASCII digits, rejecting
anything else, the empty string, and values outside the `int64` range. -/
def goAtoi (s : String) : Option Int :=
  let signed : Bool × List Char :=
    match s.toList with
    | '+' :: cs => (false, cs)
    | '-' :: cs => (true, cs)
    | cs => (false, cs)
  match parseDigits signed.2 with
  | none => none
  | some n =>
    let v : Int := if signed.1 then -(n : Int) else (n : Int)
    if v < -(2 ^ 63) ∨ 2 ^ 63 ≤ v then none else some v

/-- Embeds `getSnaplenEnv`: read the `SNAPLEN` environment variable
(`os.Getenv` yields `""` when the variable is unset), return 1000 when
`strconv.Atoi` fails, and the parsed value otherwise. -/
def getSnaplenEnv (env : Option String) : Int :=
  match goAtoi (env.getD "") with
  | none => 1000
  | some v => v

/-! ### C10: otelexporter `StartServer` -/

/-- The two `Logger.Panic` sites of `StartServer`. -/
inductive PanicReason
  | modNumberNotSet
  | portNotFound
deriving DecidableEq

/-- Result of the port-selection phase of `StartServer`: either a panic
or listening on the selected port. -/
inductive StartOutcome
  | panicked (r : PanicReason)
  | listen (port : String)
deriving DecidableEq

/-- Embeds the `for k, v := range ports` loop of `StartServer`: `port`
starts as `""` and takes the value of the first key equal to
`kindling_mod_number` (the Go map has distinct keys, so at most one pair
matches and iteration order is immaterial). -/
def selectPort : List (String × String) → String → String
  | [], _ => ""
  | kv :: rest, m => if kv.1 = m then kv.2 else selectPort rest m

/-- Embeds the control flow of `StartServer` up to `ListenAndServe`:
panic when `kindling_mod_number` is unset (`os.Getenv` yields `""`),
panic when the selected port is `""`, otherwise listen on it. -/
def startServerSelect (env : Option String) (ports : List (String × String)) : StartOutcome :=
  let modNumber := env.getD ""
  if modNumber = "" then StartOutcome.panicked PanicReason.modNumberNotSet
  else
    let port := selectPort ports modNumber
    if port = "" then StartOutcome.panicked PanicReason.portNotFound
    else StartOutcome.listen port

/-! ### C1: `distributeTraceMetric` and the `sent_once` latch

`network_analyzer.go` lines 437-478.  The per-state emission control flow
is embedded on the `messagePairs` object itself: the query-event guard,
then the `checkSend` latch; the boolean result says whether this call
went on to parse and distribute records.  The map store/delete and the
conntrack lookup that follow the latch do not feed back into it and are
embedded separately (`distributeTraceMetricOn`). -/

/-- Embeds the emission-control prefix of `distributeTraceMetric`: return
without emitting when the state has neither connects nor requests, then
return without emitting unless `checkSend` wins the `sent_once` latch;
otherwise parse and distribute (`true`). -/
def distributeTraceMetric (oldPairs : MessagePairs) : Bool × MessagePairs :=
  if oldPairs.connects.isNone && oldPairs.requests.isNone then (false, oldPairs)
  else
    let cs := oldPairs.checkSend
    if cs.1 then (true, cs.2) else (false, cs.2)

/-- A sequence of `n` flush triggers (router- or sweeper-initiated, both
reach the same `distributeTraceMetric` body) applied to one FlowState;
returns the number of emissions and the final state. -/
def flushSeq (mps : MessagePairs) : Nat → Nat × MessagePairs
  | 0 => (0, mps)
  | n + 1 =>
    let r := distributeTraceMetric mps
    let rest := flushSeq r.2 n
    ((if r.1 then 1 else 0) + rest.1, rest.2)

/-- Embeds `distributeTraceMetric`'s effect on the `requestMonitor` map:
when the latch is won, either the replacement state is stored under its
key or the old entry is deleted; when it is not, the map is untouched. -/
def distributeTraceMetricOn (monitor : Monitor) (oldPairs : MessagePairs)
    (newPairs : Option MessagePairs) : Monitor × Bool :=
  let r := distributeTraceMetric oldPairs
  if r.1 then
    match newPairs with
    | some np => (mapStore monitor np.getKey np, true)
    | none => (mapDelete monitor oldPairs.getKey, true)
  else (monitor, false)

/-! ### C2: the timeout sweeper (`consumerFdNoReusingTrace`) -/

/-- Embeds the per-state decision of the sweeper tick
(`consumerFdNoReusingTrace`, lines 306-320): with a nonzero timeout
timestamp, compute `duration = now/1e9 - timeoutTs/1e9` (integer division
as in Go) and flush either when responses are present and `duration ≥
fdReuseTimeout`, or else when `duration ≥ noResponseThreshold`. -/
def sweeperShouldFlush (mps : MessagePairs) (now fdReuseTimeout noResponseThreshold : Nat) : Bool :=
  let timeoutTs := mps.getTimeoutTs
  if timeoutTs ≠ 0 then
    let duration : Int := ((now / 1000000000 : Nat) : Int) - ((timeoutTs / 1000000000 : Nat) : Int)
    if mps.responses.isSome && duration ≥ (fdReuseTimeout : Int) then true
    else if duration ≥ (noResponseThreshold : Int) then true
    else false
  else false

/-- The `duration` the sweeper compares against its thresholds. -/
def sweeperIdle (mps : MessagePairs) (now : Nat) : Int :=
  ((now / 1000000000 : Nat) : Int) - ((mps.getTimeoutTs / 1000000000 : Nat) : Int)

/-! ### C3: the request handler (`analyseRequest`) -/

/-- The fresh single-request FlowState `analyseRequest` builds for the
incoming event. -/
def newRequestPairs (evt : Event) (snaplen : Nat) : MessagePairs :=
  ⟨none, some (newEvents evt snaplen), none, none, false, snaplen⟩

/-- Embeds `analyseRequest` (lines 386-419): `LoadOrStore` a fresh
single-request state; when an old state exists, overwrite an empty one,
merge into a connect-only one, and otherwise flush-and-install exactly
when the old state has responses or `IsSportChanged` fires, merging the
request otherwise.  Returns the new map and whether the old state was
flushed (emitted). -/
def analyseRequest (monitor : Monitor) (evt : Event) (snaplen : Nat) : Monitor × Bool :=
  let mps := newRequestPairs evt snaplen
  let key := mps.getKey
  match mapLoad monitor key with
  | none => (mapStore monitor key mps, false)
  | some oldPairs =>
    match oldPairs.requests with
    | none =>
      match oldPairs.connects with
      | none => (mapStore monitor key mps, false)
      | some _ => (mapStore monitor key (oldPairs.mergeRequest evt), false)
    | some reqs =>
      if oldPairs.responses.isSome || reqs.isSportChanged evt then
        distributeTraceMetricOn monitor oldPairs (some mps)
      else (mapStore monitor key (oldPairs.mergeRequest evt), false)

/-! ### C4: DNS multi-request pairing (`dnsPair`, `parseMultipleRequests`) -/

/-- The attributes `dnsPair` reads from a parsed DNS payload message:
`GetIntAttribute(DnsId)` and `GetStringAttribute(DnsDomain)`. -/
structure DnsAttrs where
  dnsId : Int
  dnsDomain : String
deriving DecidableEq

/-- Placeholder event (the Go code never indexes out of range). -/
def defaultEvent : Event :=
  ⟨0, 0, 0, 0, 0, []⟩

/-- Placeholder attributes for out-of-range indexing. -/
def defaultDnsAttrs : DnsAttrs :=
  ⟨0, ""⟩

/-- The indexed scan of `dnsPair` (`dns_parser.go` lines 46-56),
generalized over the start index. -/
def dnsPairAux (response : DnsAttrs) : List DnsAttrs → Nat → Int
  | [], _ => -1
  | req :: rest, i =>
    if req.dnsId = response.dnsId ∧ req.dnsDomain = response.dnsDomain then (i : Int)
    else dnsPairAux response rest (i + 1)

/-- Embeds `dnsPair`: the index of the first parsed request whose
`DnsId` and `DnsDomain` both equal the response's, or `-1`. -/
def dnsPair (requests : List DnsAttrs) (response : DnsAttrs) : Int :=
  dnsPairAux response requests 0

/-- A record produced by `getRecordWithSinglePair`, reduced to the data
the DNS multi-request claim is about: the request event, the optional
response event, and the attribute map the record was built from
(response attributes for paired records, request attributes for
no-response records). -/
structure SinglePairRecord where
  request : Event
  response : Option Event
  attrs : DnsAttrs
deriving DecidableEq

/-- The response loop of `parseMultipleRequests` (lines 612-634): parse
each response (failure abandons the state), `PairMatch` it against the
parsed requests (`-1` abandons the state), record the matched index, and
emit a paired record for the matched request. -/
def parseRespLoop (parseResponse : List Nat → Option DnsAttrs)
    (pairMatch : List DnsAttrs → DnsAttrs → Int)
    (parsedReqMsgs : List DnsAttrs) (requests : List Event) :
    List Event → List Nat → List SinglePairRecord → Option (List Nat × List SinglePairRecord)
  | [], matched, acc => some (matched, acc)
  | resp :: rest, matched, acc =>
    match parseResponse resp.data with
    | none => none
    | some respAttrs =>
      let matchIdx := pairMatch parsedReqMsgs respAttrs
      if matchIdx = -1 then none
      else
        parseRespLoop parseResponse pairMatch parsedReqMsgs requests rest
          (matched ++ [matchIdx.toNat])
          (acc ++ [⟨requests.getD matchIdx.toNat defaultEvent, some resp, respAttrs⟩])

/-- The 498 loop of `parseMultipleRequests` (lines 636-647): every
request whose index was never matched is emitted as a no-response record
carrying its own parsed attributes. -/
def unmatchedRequestRecords (requests : List Event) (parsedReqMsgs : List DnsAttrs)
    (matched : List Nat) : List SinglePairRecord :=
  (List.range requests.length).filterMap (fun i =>
    if i ∈ matched then none
    else some ⟨requests.getD i defaultEvent, none, parsedReqMsgs.getD i defaultDnsAttrs⟩)

/-- The request loop of `parseMultipleRequests` (lines 586-596): parse
every request payload in order; any failure abandons the state. -/
def parseAllRequests (parseRequest : List Nat → Option DnsAttrs) :
    List Event → Option (List DnsAttrs)
  | [] => some []
  | req :: rest =>
    match parseRequest req.data with
    | none => none
    | some a =>
      match parseAllRequests parseRequest rest with
      | none => none
      | some tailAttrs => some (a :: tailAttrs)

/-- Embeds `parseMultipleRequests` (lines 584-650) over the request and
response event lists of the FlowState (`mps.requests.getEvent i` for
`i < size`), with the per-payload parsers abstracted: parse every
request (failure abandons the state); without responses emit one
no-response record per request; with responses run the pairing loop and
then append the unmatched-request records. -/
def parseMultipleRequests (parseRequest parseResponse : List Nat → Option DnsAttrs)
    (pairMatch : List DnsAttrs → DnsAttrs → Int)
    (requests : List Event) (responses : Option (List Event)) :
    Option (List SinglePairRecord) :=
  match parseAllRequests parseRequest requests with
  | none => none
  | some parsedReqMsgs =>
    match responses with
    | none => some (List.zipWith (fun req a => ⟨req, none, a⟩) requests parsedReqMsgs)
    | some resps =>
      match parseRespLoop parseResponse pairMatch parsedReqMsgs requests resps [] [] with
      | none => none
      | some r => some (r.2 ++ unmatchedRequestRecords requests parsedReqMsgs r.1)

/-! ### C6/C8: record labels, `getRecords`, `getConnectFailRecords` -/

/-- The `constlabels` error types the analyzer writes. -/
inductive ErrorKind
  | noError
  | protocolError
  | noResponse
  | connectFail
deriving DecidableEq

/-- Modelled from the parser contract: the protocol-level attributes a
parser stores into the message that `getRecords` consumes — whether the
parser flagged a protocol error (`IsError=true` with
`ErrorType=ProtocolError`), and the `HttpContinue` / `Oneway` marker
labels. -/
structure Attrs where
  protocolError : Bool
  httpContinue : Bool
  oneway : Bool
deriving DecidableEq

/-- The error-classification-relevant labels of an emitted `DataGroup`. -/
structure DataGroupLabels where
  protocolName : String
  isError : Bool
  errorType : ErrorKind
deriving DecidableEq

/-- Embeds `getConnectFailRecords` (lines 652-674) at the label level:
a single record with `isError = true`, `errorType = ConnectFail`, and no
protocol label. -/
def getConnectFailRecords (_mps : MessagePairs) : List DataGroupLabels :=
  [⟨"", true, ErrorKind.connectFail⟩]

/-- Embeds `getRecords` (lines 676-745) at the level of its monitor
effect and error-classification labels.  The `HttpContinue` branch
re-inserts the request buffer into the state currently stored under the
request's key (if any) and emits nothing.  Otherwise the labels start as
`(isError = false, NoError)`, merging the parser attributes overwrites
them with `(true, ProtocolError)` when the parser flagged an error, and
the final check turns a still-clean record of a state without responses
into `(true, NoResponse)`.  (`getRecords` is only ever called with
requests present; a requestless state yields no record here.) -/
def getRecords (monitor : Monitor) (mps : MessagePairs) (protocolName : String)
    (attributes : Option Attrs) : Monitor × List DataGroupLabels :=
  match mps.requests with
  | none => (monitor, [])
  | some reqs =>
    if (attributes.map (fun a => a.httpContinue)).getD false then
      let key : FlowKey := ⟨reqs.event.pid, reqs.event.fd⟩
      match mapLoad monitor key with
      | some oldPairs => (mapStore monitor key (oldPairs.putRequestBack reqs), [])
      | none => (monitor, [])
    else
      let merged : Bool × ErrorKind :=
        match attributes with
        | some a =>
          if a.protocolError then (true, ErrorKind.protocolError)
          else (false, ErrorKind.noError)
        | none => (false, ErrorKind.noError)
      let finalLabels : Bool × ErrorKind :=
        if !merged.1 && mps.responses.isNone then (true, ErrorKind.noResponse) else merged
      (monitor, [⟨protocolName, finalLabels.1, finalLabels.2⟩])

/-- The spec's first-match-wins error classification, written from the
spec's words so it can be compared with what the record builders
compute: ConnectFail only on the connect-fail path, else the parser's
ProtocolError, else NoResponse when the state has no response, else
NoError. -/
def claimedClassification (connectFailPath parserProtocolError hasResponse : Bool) :
    Bool × ErrorKind :=
  if connectFailPath then (true, ErrorKind.connectFail)
  else if parserProtocolError then (true, ErrorKind.protocolError)
  else if !hasResponse then (true, ErrorKind.noResponse)
  else (false, ErrorKind.noError)

/-! ### C6: `parseDnsResponse` byte-level embedding -/

/-- Big-endian 16-bit read (`PayloadMessage.ReadUInt16`, defined outside
the embedded files): `none` past the end of the payload. -/
def readUInt16 (data : List Nat) (offset : Nat) : Option Nat :=
  match data.get? offset, data.get? (offset + 1) with
  | some hi, some lo => some (hi * 256 + lo)
  | _, _ => none

/-- Reads as `ReadUInt16` with the error discarded, as in the `id, _ :=` reads of
`parseDnsResponse` (the value is 0 when the read fails). -/
def readUInt16D (data : List Nat) (offset : Nat) : Nat :=
  (readUInt16 data offset).getD 0

/-- Embeds `PayloadMessage.ReadBytes` (defined outside the embedded files):
returns the advanced offset and the bytes read, failing past the end of
the payload. -/
def readBytes (data : List Nat) (offset len : Nat) : Option (Nat × List Nat) :=
  if data.length < offset + len then none
  else some (offset + len, (data.drop offset).take len)

/-- The query-section loop of `readQuery` (`dns_parser.go` lines 62-81),
with `unpackDomainName` (defined outside the embedded files) abstracted
as a function returning the unpacked name and new offset, or `none` on a
malformed name.  `msgOffset` is `message.Offset`, which the loop's
`IsComplete` guard reads (the loop never advances it). -/
def readQueryLoop (unpackDomainName : List Nat → Nat → Option (String × Nat))
    (data : List Nat) (msgOffset : Nat) : Nat → Nat → String → Option (String × Nat)
  | 0, offset, domain => some (domain, offset)
  | i + 1, offset, domain =>
    if data.length ≤ msgOffset then none
    else
      match unpackDomainName data offset with
      | none => none
      | some nameOff =>
        if data.length ≤ nameOff.2 then none
        else
          let domain2 := if domain.length = 0 then nameOff.1 else domain
          readQueryLoop unpackDomainName data msgOffset i (nameOff.2 + 4) domain2

/-- Embeds `readQuery`: starting 12 bytes past `message.Offset`, read
`queryCount` question entries, keeping the first domain name. -/
def readQuery (unpackDomainName : List Nat → Nat → Option (String × Nat))
    (data : List Nat) (msgOffset : Nat) (queryCount : Nat) : Option (String × Nat) :=
  readQueryLoop unpackDomainName data msgOffset queryCount (msgOffset + 12) ""

/-- Renders as `net.IP.String` does the A-record bytes the answer loop extracts
(dotted representation of the raw bytes). -/
def ipString (bytes : List Nat) : String :=
  String.intercalate "." (bytes.map toString)

/-- The answer loop of `readIpV4Answer` (`dns_response.go` lines
96-131): per answer skip the name, read the type, skip class/ttl, read
rdlength, collect dotted A-record data, and advance past the rdata; a
failed read breaks out with the offset reached so far. -/
def readIpV4AnswerLoop (data : List Nat) : Nat → Nat → List String → Nat × List String
  | 0, offset, ips => (offset, ips)
  | count + 1, offset, ips =>
    let o1 := offset + 2
    match readUInt16 data o1 with
    | none => (o1, ips)
    | some aType =>
      let o2 := o1 + 8
      match readUInt16 data o2 with
      | none => (o2, ips)
      | some len =>
        let o3 := o2 + 2
        if aType = 1 then
          match readBytes data o3 len with
          | none => (o3, ips)
          | some r => readIpV4AnswerLoop data count (r.1 + len) (ips ++ [ipString r.2])
        else readIpV4AnswerLoop data count (o3 + len) ips

/-- Embeds `readIpV4Answer`: the final offset and the comma-joined
A-record strings (`""` when none were collected). -/
def readIpV4Answer (data : List Nat) (msgOffset : Nat) (answerCount : Nat) : Nat × String :=
  let r := readIpV4AnswerLoop data answerCount msgOffset []
  (r.1, if r.2 = [] then "" else String.intercalate "," r.2)

/-- The attributes `parseDnsResponse` stores into the message. -/
structure DnsResponseAttrs where
  dnsDomain : String
  dnsIp : Option String
  dnsId : Nat
  dnsRcode : Nat
  isError : Bool
  errorType : Option ErrorKind
deriving DecidableEq

/-- Embeds `parseDnsResponse` (`dns_response.go` lines 53-84): read the
id and flags (`rcode` is the low 4 bits, `flags & 0xf = flags % 16`),
the question and answer counts; fail on zero questions or a malformed
query section; then scan the answers and store the attributes, flagging
`IsError=true` with `ProtocolError` exactly when `rcode > 0`.  `none` is
the parse-failure `(false, true)` return. -/
def parseDnsResponse (unpackDomainName : List Nat → Nat → Option (String × Nat))
    (data : List Nat) (offset : Nat) : Option DnsResponseAttrs :=
  let id := readUInt16D data offset
  let flags := readUInt16D data (offset + 2)
  let rcode := flags % 16
  let numOfQuestions := readUInt16D data (offset + 4)
  let numOfAnswers := readUInt16D data (offset + 6)
  if numOfQuestions = 0 then none
  else
    match readQuery unpackDomainName data offset numOfQuestions with
    | none => none
    | some domOff =>
      let ans := readIpV4Answer data domOff.2 numOfAnswers
      some { dnsDomain := domOff.1
             dnsIp := if 0 < ans.2.length then some ans.2 else none
             dnsId := id
             dnsRcode := rcode
             isError := decide (0 < rcode)
             errorType := if 0 < rcode then some ErrorKind.protocolError else none }

/-- Embeds `fastfailDnsResponse`: reject payloads no longer than the 12-byte
DNS header. -/
def fastfailDnsResponse (data : List Nat) : Bool :=
  data.length ≤ 12

/-- Embeds `parseTcpDnsResponse`: skip the 2-byte TCP length prefix, then parse. -/
def parseTcpDnsResponse (unpackDomainName : List Nat → Nat → Option (String × Nat))
    (data : List Nat) : Option DnsResponseAttrs :=
  parseDnsResponse unpackDomainName data 2

/-- Embeds `parseUdpDnsResponse`: parse from offset 0. -/
def parseUdpDnsResponse (unpackDomainName : List Nat → Nat → Option (String × Nat))
    (data : List Nat) : Option DnsResponseAttrs :=
  parseDnsResponse unpackDomainName data 0

/-! ### C5/C7: `parseProtocols` and the port cache -/

/-- Embeds `CACHE_ADD_THRESHOLD` (line 32). -/
def CACHE_ADD_THRESHOLD : Nat := 50

/-- Embeds `CACHE_RESET_THRESHOLD` (line 33). -/
def CACHE_RESET_THRESHOLD : Nat := 5000

/-- The `protocol.NOSUPPORT` sentinel protocol name. -/
def NOSUPPORT : String := "NOSUPPORT"

/-- A protocol parser as seen by `parseProtocols` for one fixed
FlowState: its protocol name (`GetProtocol`) and the outcome of
`na.parseProtocol(mps, parser)` on that state (`none` = parse failure,
fall through to the next parser). -/
structure ProtocolParserM where
  protocolName : String
  run : Option (List DataGroupLabels)
deriving DecidableEq

/-- Per-port feedback state of the parser factory, for the one port
`parseProtocols` works on: the cached parser list
(`GetCachedParsersByPort`, absent modelled as `[]`) and the per-parser
counters (`AddPortCount` / `ResetPort`) keyed by protocol name. -/
structure FactoryState where
  cachedParsers : List ProtocolParserM
  counts : List (String × Nat)
deriving DecidableEq

/-- Current counter value for a parser name (0 when never incremented). -/
def countOf : List (String × Nat) → String → Nat
  | [], _ => 0
  | kv :: rest, nm => if kv.1 = nm then kv.2 else countOf rest nm

/-- Modelled from the spec: `AddPortCount` atomically increments the
per-(parser, port) counter and returns the new count. -/
def addPortCount : List (String × Nat) → String → Nat × List (String × Nat)
  | [], nm => (1, [(nm, 1)])
  | kv :: rest, nm =>
    if kv.1 = nm then (kv.2 + 1, (nm, kv.2 + 1) :: rest)
    else
      let r := addPortCount rest nm
      (r.1, kv :: r.2)

/-- Modelled from the spec: `ResetPort` zeroes the counter. -/
def resetPort : List (String × Nat) → String → List (String × Nat)
  | [], _ => []
  | kv :: rest, nm => if kv.1 = nm then (nm, 0) :: rest else kv :: resetPort rest nm

/-- Modelled from the spec: `RemoveCachedParser` evicts the parser from
the port's cached list. -/
def removeCachedParser (cache : List ProtocolParserM) (nm : String) : List ProtocolParserM :=
  cache.filter (fun p => decide (p.protocolName ≠ nm))

/-- Embeds the cached-parsers step of `parseProtocols` (lines 523-538):
try each cached parser in order; the first that yields records wins;
when that parser is the no-support sentinel, bump its per-port counter
and, exactly on reaching `CACHE_RESET_THRESHOLD`, reset the counter and
evict it from the port cache. -/
def runCachedStep (fs : FactoryState) :
    List ProtocolParserM → Option (List DataGroupLabels × FactoryState)
  | [] => none
  | p :: rest =>
    match p.run with
    | none => runCachedStep fs rest
    | some records =>
      if p.protocolName = NOSUPPORT then
        let ac := addPortCount fs.counts p.protocolName
        if ac.1 = CACHE_RESET_THRESHOLD then
          some (records,
            ⟨removeCachedParser fs.cachedParsers p.protocolName, resetPort ac.2 p.protocolName⟩)
        else some (records, ⟨fs.cachedParsers, ac.2⟩)
      else some (records, fs)

/-- Embeds the full-scan step of `parseProtocols` (lines 541-550): try
every configured parser in order; the first that yields records wins,
its per-port counter is bumped and, exactly on reaching
`CACHE_ADD_THRESHOLD`, it is installed into the port cache. -/
def runFullScanStep (fs : FactoryState) :
    List ProtocolParserM → Option (List DataGroupLabels × FactoryState)
  | [] => none
  | p :: rest =>
    match p.run with
    | none => runFullScanStep fs rest
    | some records =>
      let ac := addPortCount fs.counts p.protocolName
      if ac.1 = CACHE_ADD_THRESHOLD then
        some (records, ⟨fs.cachedParsers ++ [p], ac.2⟩)
      else some (records, ⟨fs.cachedParsers, ac.2⟩)

/-- Association-list lookup for `staticPortMap`. -/
def lookupPort : List (Nat × String) → Nat → Option String
  | [], _ => none
  | kv :: rest, p => if kv.1 = p then some kv.2 else lookupPort rest p

/-- Association-list lookup for `protocolMap`. -/
def lookupProtocol : List (String × ProtocolParserM) → String → Option ProtocolParserM
  | [], _ => none
  | kv :: rest, nm => if kv.1 = nm then some kv.2 else lookupProtocol rest nm

/-- The analyzer configuration `parseProtocols` reads: the static
port→protocol mapping, the registered parser table, and the ordered
full-scan parser list (generic fallback appended last by `Start`). -/
structure NetworkAnalyzerM where
  staticPortMap : List (Nat × String)
  protocolMap : List (String × ProtocolParserM)
  parsers : List ProtocolParserM
deriving DecidableEq

/-- Embeds `parseProtocols` (lines 494-552).  Step 1: a static port
mapping short-circuits resolution — connect-fail records when the state
has no requests, the mapped parser's records on parse success, and a
record labeled with the static protocol but without parsed attributes
when the parser is unregistered or fails.  Without a static mapping:
connect-fail when no requests, then the cached-parsers step, then the
full scan, then the `NOSUPPORT` fallback record. -/
def parseProtocols (na : NetworkAnalyzerM) (monitor : Monitor) (fs : FactoryState)
    (mps : MessagePairs) : List DataGroupLabels × FactoryState × Monitor :=
  let port := mps.getPort
  match lookupPort na.staticPortMap port with
  | some staticProtocol =>
    if mps.requests.isNone then (getConnectFailRecords mps, fs, monitor)
    else
      match lookupProtocol na.protocolMap staticProtocol with
      | some parser =>
        match parser.run with
        | some records => (records, fs, monitor)
        | none =>
          let g := getRecords monitor mps staticProtocol none
          (g.2, fs, g.1)
      | none =>
        let g := getRecords monitor mps staticProtocol none
        (g.2, fs, g.1)
  | none =>
    if mps.requests.isNone then (getConnectFailRecords mps, fs, monitor)
    else
      match runCachedStep fs fs.cachedParsers with
      | some r => (r.1, r.2, monitor)
      | none =>
        match runFullScanStep fs na.parsers with
        | some r => (r.1, r.2, monitor)
        | none =>
          let g := getRecords monitor mps NOSUPPORT none
          (g.2, fs, g.1)

/-- Errors `http.Server.ListenAndServe` may return. -/
inductive GoError
  | errServerClosed
  | other (s : String)
deriving DecidableEq

/-- Embeds the tail of `StartServer`: propagate the serve error unless it
is `nil` or `http.ErrServerClosed`, in which case return `nil`. -/
def serveReturn (err : Option GoError) : Option GoError :=
  match err with
  | some e => if e ≠ GoError.errServerClosed then some e else none
  | none => none

/-! ### Concrete instances used by witnesses and counterexamples -/

/-- A request event on flow `(pid 7, fd 3)`. -/
def evtC1 : Event := ⟨7, 3, 40000, 80, 100, [1, 2, 3]⟩

/-- A fresh single-request FlowState (as the request handler builds). -/
def mpsEx1 : MessagePairs := newRequestPairs evtC1 1000

/-- A response event whose timestamp is 1 second. -/
def respEvtC2 : Event := ⟨7, 3, 40000, 80, 1000000000, [9]⟩

/-- A FlowState holding a request and a response (last event at 1s). -/
def mpsC2 : MessagePairs :=
  ⟨none, some (newEvents evtC1 1000), some (newEvents respEvtC2 1000), none, false, 1000⟩

/-- First request on flow `(pid 7, fd 3)`, sport 40000. -/
def evtC3a : Event := ⟨7, 3, 40000, 80, 100, [1]⟩

/-- Second request on the same flow with a different sport. -/
def evtC3b : Event := ⟨7, 3, 40001, 80, 200, [2]⟩

/-- The FlowState installed by the first request. -/
def oldPairsC3 : MessagePairs := newRequestPairs evtC3a 1000

/-- The monitor holding that state. -/
def monitorC3 : Monitor := [(⟨7, 3⟩, oldPairsC3)]

/-- A one-byte decoder exercising the multi-request machinery on
concrete inputs: payload `[i]` parses to DNS id `i`, domain `"q"`. -/
def tinyDnsDecode : List Nat → Option DnsAttrs
  | [i] => some ⟨(i : Int), "q"⟩
  | _ => none

/-- DNS-over-TCP request with id 1. -/
def reqEvtC4 : Event := ⟨1, 1, 1, 1, 0, [1]⟩

/-- DNS-over-TCP response with id 2, matching no request. -/
def respEvtC4 : Event := ⟨1, 1, 1, 1, 2, [2]⟩

/-- Request with id 1 for the successful pairing scenario. -/
def reqEvtA : Event := ⟨1, 1, 1, 1, 0, [1]⟩

/-- Request with id 2 for the successful pairing scenario. -/
def reqEvtB : Event := ⟨1, 1, 1, 1, 1, [2]⟩

/-- Response with id 2 (pairs with `reqEvtB`). -/
def respEvtB : Event := ⟨1, 1, 1, 1, 2, [2]⟩

/-- Response with id 3 (parses but matches neither request). -/
def respEvtNoMatchC4 : Event := ⟨1, 1, 1, 1, 3, [3]⟩

/-- The records the pairing scenario produces: id-2 pair, then the
unmatched id-1 request as a no-response record. -/
def recordsC4 : List SinglePairRecord :=
  [⟨reqEvtB, some respEvtB, ⟨2, "q"⟩⟩, ⟨reqEvtA, none, ⟨1, "q"⟩⟩]

/-- A paired record is soundly matched when the parsed attributes of its
request agree on `DnsId` and `DnsDomain` with the response attributes it
was built from, under the given request/response payload parsers. -/
def soundPairing (pr ps : List Nat → Option DnsAttrs) (rec : SinglePairRecord) : Prop :=
  ∀ resp, rec.response = some resp →
    ∃ reqAttrs, pr rec.request.data = some reqAttrs ∧ ps resp.data = some rec.attrs ∧
      reqAttrs.dnsId = rec.attrs.dnsId ∧ reqAttrs.dnsDomain = rec.attrs.dnsDomain

/-- A paired record pairs its response with the FIRST request of the
state whose parsed attributes match the response's id and domain: the
record's request sits at an index whose parsed attributes match, and
every earlier request's parsed attributes do not. -/
def firstMatchPairing (pr ps : List Nat → Option DnsAttrs) (requests : List Event)
    (rec : SinglePairRecord) : Prop :=
  ∀ resp, rec.response = some resp →
    ∃ a, ps resp.data = some a ∧ rec.attrs = a ∧
      ∃ i, i < requests.length ∧ rec.request = requests.getD i defaultEvent ∧
        (∃ reqAttrs, pr ((requests.getD i defaultEvent).data) = some reqAttrs ∧
          reqAttrs.dnsId = a.dnsId ∧ reqAttrs.dnsDomain = a.dnsDomain) ∧
        ∀ j, j < i →
          ∀ reqAttrs, pr ((requests.getD j defaultEvent).data) = some reqAttrs →
            ¬(reqAttrs.dnsId = a.dnsId ∧ reqAttrs.dnsDomain = a.dnsDomain)

/-- A parser whose counter stands one success short of the add
threshold. -/
def parserC5 : ProtocolParserM := ⟨"http", some []⟩

/-- Factory state with the `"http"` counter at 49. -/
def fsC5 : FactoryState := ⟨[], [("http", 49)]⟩

/-- The factory state after the 50th success installs the parser. -/
def fsC5out : FactoryState := ⟨[parserC5], [("http", 50)]⟩

/-- A domain unpacker for concrete DNS payloads: always reads one byte
and yields `"example.com"`. -/
def unpackC6 : List Nat → Nat → Option (String × Nat) :=
  fun _ offset => some ("example.com", offset + 1)

/-- A 20-byte DNS response payload: id 0x1234, flags 0x8183 (rcode 3),
one question, no answers. -/
def dataC6 : List Nat :=
  [18, 52, 129, 131, 0, 1, 0, 0, 0, 0, 0, 0, 0, 0, 0, 0, 0, 0, 0, 0]

/-- The attributes `parseDnsResponse` extracts from `dataC6` under
`unpackC6`. -/
def dnsAttrsC6 : DnsResponseAttrs :=
  ⟨"example.com", none, 4660, 3, true, some ErrorKind.protocolError⟩

/-- A FlowState with one request and no response (for classification). -/
def mpsC6 : MessagePairs :=
  ⟨none, some (newEvents evtC1 1000), none, none, false, 1000⟩

/-- Attributes with no parser error and no markers. -/
def attrsClean : Attrs := ⟨false, false, false⟩

/-- Attributes carrying the `HttpContinue` marker. -/
def attrsContinue : Attrs := ⟨false, true, false⟩

/-- A FlowState whose merged request buffer is about to be emitted with
`HttpContinue` attributes (its request event is `evtC1`, flow (7, 3)). -/
def mpsC8 : MessagePairs :=
  ⟨none, some (newEvents evtC1 1000), none, none, false, 1000⟩

/-- A monitor still holding a state under flow (7, 3). -/
def monitorC8 : Monitor := [(⟨7, 3⟩, newRequestPairs evtC3a 1000)]

/-- Static analyzer configuration mapping port 80 to `"http"` with a
registered parser that succeeds with one clean record. -/
def naC7 : NetworkAnalyzerM :=
  ⟨[(80, "http")], [("http", ⟨"http", some [⟨"http", false, ErrorKind.noError⟩]⟩)], []⟩

/-- A factory state C7 shows `parseProtocols` never consults under a
static mapping. -/
def fsC7 : FactoryState := ⟨[⟨NOSUPPORT, some []⟩], [(NOSUPPORT, 4999)]⟩

/-! ## Theorems -/

/-- C9: `getSnaplenEnv` returns the default 1000 exactly when `SNAPLEN`
is unset or does not parse under `strconv.Atoi`, and returns any value
that does parse — zero and negative values included — unchanged as the
per-direction payload cap. -/
theorem getSnaplenEnv_spec (env : Option String) :
    (goAtoi (env.getD "") = none → getSnaplenEnv env = 1000)
  ∧ (∀ v : Int, goAtoi (env.getD "") = some v → getSnaplenEnv env = v)
  ∧ getSnaplenEnv none = 1000
  ∧ getSnaplenEnv (some "0") = 0
  ∧ getSnaplenEnv (some "-7") = -7
  ∧ getSnaplenEnv (some "12a") = 1000 := by
  refine ⟨fun h => ?_, fun v h => ?_, by decide, by decide, by decide, by decide⟩
  · simp [getSnaplenEnv, h]
  · simp [getSnaplenEnv, h]

/-- Witness for C9: an unparsable value falls back to 1000 and a parsed
one is returned as-is. -/
theorem getSnaplenEnv_spec_witness :
    getSnaplenEnv (some "+") = 1000 ∧ getSnaplenEnv (some "25") = 25 :=
  ⟨(getSnaplenEnv_spec (some "+")).1 (by decide),
   (getSnaplenEnv_spec (some "25")).2.1 25 (by decide)⟩

/-- C10 counterexample: with `kindling_mod_number = "1"` and a ports map
whose key `"1"` maps to the empty string, a key equal to the variable's
value does exist, yet `StartServer` panics instead of listening on the
mapped value. -/
theorem startServer_matching_key_still_panics :
    (("1", "") ∈ [(("1" : String), ("" : String))])
  ∧ startServerSelect (some "1") [("1", "")]
      = StartOutcome.panicked PanicReason.portNotFound := by
  decide

/-- C10 (amended): `StartServer` panics when `kindling_mod_number` is
unset (or empty, indistinguishable through `os.Getenv`), and when the
selected port value is empty — because no key equals the variable's
value, or because the matching key maps to `""`; otherwise it listens on
the matching key's value; and it returns `nil` exactly when the serve
error is `nil` or `http.ErrServerClosed`, and the error otherwise. -/
theorem startServer_port_selection (env : Option String)
    (ports : List (String × String)) (err : Option GoError) :
    ((env = none ∨ env = some "") →
      startServerSelect env ports = StartOutcome.panicked PanicReason.modNumberNotSet)
  ∧ (∀ m, env = some m → m ≠ "" →
      (selectPort ports m = "" →
        startServerSelect env ports = StartOutcome.panicked PanicReason.portNotFound)
      ∧ (selectPort ports m ≠ "" →
        startServerSelect env ports = StartOutcome.listen (selectPort ports m))
      ∧ ((∀ kv ∈ ports, kv.1 ≠ m) → selectPort ports m = "")
      ∧ (∀ v, (ports.map Prod.fst).Nodup → (m, v) ∈ ports → selectPort ports m = v))
  ∧ (serveReturn err = none ↔ err = none ∨ err = some GoError.errServerClosed) := by
  refine ⟨fun h => ?_, fun m hm hne => ⟨fun h0 => ?_, fun h0 => ?_, fun hno => ?_, fun v hnd hmem => ?_⟩, ?_⟩
  · rcases h with h | h <;> simp [startServerSelect, h]
  · simp [startServerSelect, hm, hne, h0]
  · simp [startServerSelect, hm, hne, h0]
  · clear hm
    induction ports with
    | nil => simp [selectPort]
    | cons kv rest ih =>
      have h1 : kv.1 ≠ m := hno kv (List.mem_cons_self kv rest)
      simp only [selectPort, if_neg h1]
      exact ih (fun x hx => hno x (List.mem_cons_of_mem kv hx))
  · clear hm
    induction ports with
    | nil => simp at hmem
    | cons kv rest ih =>
      rcases List.mem_cons.mp hmem with h | h
      · rw [← h]; simp [selectPort]
      · have h1 : kv.1 ≠ m := by
          intro h1
          have : m ∈ rest.map Prod.fst := List.mem_map.mpr ⟨(m, v), h, rfl⟩
          rw [List.map_cons, List.nodup_cons] at hnd
          exact hnd.1 (h1 ▸ this)
        simp only [selectPort, if_neg h1]
        exact ih ((List.map_cons _ kv rest ▸ hnd).of_cons) h
  · cases err with
    | none => simp [serveReturn]
    | some e => cases e <;> simp [serveReturn]

/-- Witness for C10's amended theorem: a matching non-empty port is
listened on, and a missing variable panics. -/
theorem startServer_port_selection_witness :
    startServerSelect (some "2") [("1", "9500"), ("2", "9501")] = StartOutcome.listen "9501"
  ∧ startServerSelect none [("1", "9500")] = StartOutcome.panicked PanicReason.modNumberNotSet := by
  have h1 := startServer_port_selection (some "2") [("1", "9500"), ("2", "9501")] none
  have h2 := startServer_port_selection none [("1", "9500")] none
  refine ⟨?_, h2.1 (Or.inl rfl)⟩
  have := ((h1.2.1 "2" rfl (by decide)).2.1 (by decide))
  simpa using this

/-- An already-sent state is left unchanged and never emits. -/
lemma distributeTraceMetric_of_sent (mps : MessagePairs) (h : mps.sentOnce = true) :
    distributeTraceMetric mps = (false, mps) := by
  simp [distributeTraceMetric, MessagePairs.checkSend, h]

/-- A flush sequence over an already-sent state emits nothing. -/
lemma flushSeq_of_sent (mps : MessagePairs) (h : mps.sentOnce = true) :
    ∀ n, flushSeq mps n = (0, mps) := by
  intro n
  induction n with
  | zero => rfl
  | succ m ih => simp [flushSeq, distributeTraceMetric_of_sent mps h, ih]

/-- A state with neither connects nor requests never emits (the
query-event guard short-circuits before the latch). -/
lemma flushSeq_of_no_query (mps : MessagePairs)
    (h : (mps.connects.isNone && mps.requests.isNone) = true) :
    ∀ n, flushSeq mps n = (0, mps) := by
  have hd : distributeTraceMetric mps = (false, mps) := by
    simp [distributeTraceMetric, h]
  intro n
  induction n with
  | zero => rfl
  | succ m ih => simp [flushSeq, hd, ih]

/-- C1: for any sequence of flush triggers on one FlowState (router- or
sweeper-initiated, all reaching `distributeTraceMetric`), at most one
emission is produced; when an emission occurs, the `sent_once` latch
went from `false` to `true` and stays there, and every later
`distributeTraceMetric` call on the state emits nothing. -/
theorem sentOnce_at_most_once (mps : MessagePairs) (n : Nat) :
    (flushSeq mps n).1 ≤ 1
  ∧ ((flushSeq mps n).1 = 1 →
      mps.sentOnce = false ∧ (flushSeq mps n).2.sentOnce = true
      ∧ ∀ m, (flushSeq (flushSeq mps n).2 m).1 = 0) := by
  by_cases hs : mps.sentOnce = true
  · rw [flushSeq_of_sent mps hs n]
    exact ⟨Nat.zero_le 1, by intro h; simp at h⟩
  · have hs' : mps.sentOnce = false := by
      cases h : mps.sentOnce
      · rfl
      · exact absurd h hs
    by_cases hg : (mps.connects.isNone && mps.requests.isNone) = true
    · rw [flushSeq_of_no_query mps hg n]
      exact ⟨Nat.zero_le 1, by intro h; simp at h⟩
    · cases n with
      | zero =>
        exact ⟨Nat.zero_le 1, by intro h; simp [flushSeq] at h⟩
      | succ m =>
        have hd : distributeTraceMetric mps = (true, { mps with sentOnce := true }) := by
          simp only [distributeTraceMetric, MessagePairs.checkSend, hs']
          rw [if_neg hg]
          simp
        have hrest := flushSeq_of_sent { mps with sentOnce := true } rfl
        constructor
        · simp [flushSeq, hd, hrest m]
        · intro _
          refine ⟨hs', ?_, ?_⟩
          · simp [flushSeq, hd, hrest m]
          · intro k
            simp [flushSeq, hd, hrest m, hrest k]

/-- Witness for C1: a fresh single-request state flushed twice emits
exactly once, latches, and emits nothing on three further triggers. -/
theorem sentOnce_at_most_once_witness :
    (flushSeq mpsEx1 2).1 ≤ 1 ∧ (flushSeq mpsEx1 2).2.sentOnce = true
  ∧ (flushSeq (flushSeq mpsEx1 2).2 3).1 = 0 := by
  have h := sentOnce_at_most_once mpsEx1 2
  exact ⟨h.1, (h.2 (by decide)).2.1, (h.2 (by decide)).2.2 3⟩

/-- C2 counterexample: with `fdReuseTimeout = 15` and
`noResponseThreshold = 5`, the sweeper flushes a FlowState that has
responses at idle time 10 — strictly less than `fdReuseTimeout` — via
the `else if` no-response branch, so a responses-present state is not
flushed only when idle ≥ `fdReuseTimeout`. -/
theorem sweeper_flushes_responses_before_fdReuseTimeout :
    mpsC2.responses.isSome = true
  ∧ sweeperShouldFlush mpsC2 11000000000 15 5 = true
  ∧ sweeperIdle mpsC2 11000000000 < 15 := by
  refine ⟨rfl, ?_, ?_⟩ <;> decide

/-- C2 (amended): a state with a nonzero timeout timestamp and responses
present is flushed exactly when its idle time reaches
`min fdReuseTimeout noResponseThreshold` (hence exactly at
`fdReuseTimeout` whenever `noResponseThreshold ≥ fdReuseTimeout`, as in
the default configuration), and a state with only requests is flushed
exactly when its idle time reaches `noResponseThreshold`; idle time is
the sweeper's whole-second difference `now/1e9 - lastEventTs/1e9`. -/
theorem sweeper_flush_characterization (mps : MessagePairs) (now a b : Nat) :
    sweeperShouldFlush mps now a b = true ↔
      (mps.getTimeoutTs ≠ 0 ∧
        ((mps.responses.isSome = true ∧ min (a : Int) (b : Int) ≤ sweeperIdle mps now)
         ∨ (mps.responses = none ∧ (b : Int) ≤ sweeperIdle mps now))) := by
  have hunf : sweeperShouldFlush mps now a b =
      (if mps.getTimeoutTs ≠ 0 then
        (if mps.responses.isSome && decide ((a : Int) ≤ sweeperIdle mps now) then true
         else if (b : Int) ≤ sweeperIdle mps now then true else false)
       else false) := rfl
  rw [hunf]
  by_cases hts : mps.getTimeoutTs = 0
  · simp [hts]
  · rw [if_pos hts]
    cases hr : mps.responses with
    | none =>
      simp only [hr, Option.isSome_none, Bool.false_and, Bool.false_eq_true, if_false]
      by_cases hb : (b : Int) ≤ sweeperIdle mps now
      · simp [hts, hb]
      · simp [hts, hb]
    | some r =>
      simp only [hr, Option.isSome_some, Bool.true_and]
      by_cases ha : (a : Int) ≤ sweeperIdle mps now
      · simp [hts, ha, min_le_iff]
      · by_cases hb : (b : Int) ≤ sweeperIdle mps now
        · simp [hts, ha, hb, min_le_iff]
        · simp [hts, ha, hb, min_le_iff]

/-- C3: when a new request arrives for a FlowKey whose stored (and not
yet emitted) FlowState already has requests, `analyseRequest` flushes the
old state and installs the fresh single-request state exactly when the
old state also has responses or its recorded source port differs from
the event's sport; otherwise it merges the request into the old state
without emitting. -/
theorem analyseRequest_fd_reuse_flush (monitor : Monitor) (evt : Event) (snaplen : Nat)
    (oldPairs : MessagePairs) (reqs : Events)
    (hload : mapLoad monitor ⟨evt.pid, evt.fd⟩ = some oldPairs)
    (hreq : oldPairs.requests = some reqs)
    (hsent : oldPairs.sentOnce = false) :
    (analyseRequest monitor evt snaplen
        = (mapStore monitor ⟨evt.pid, evt.fd⟩ (newRequestPairs evt snaplen), true)
      ↔ (oldPairs.responses.isSome = true ∨ reqs.sport ≠ evt.sport))
  ∧ ((oldPairs.responses = none ∧ reqs.sport = evt.sport) →
      analyseRequest monitor evt snaplen
        = (mapStore monitor ⟨evt.pid, evt.fd⟩ (oldPairs.mergeRequest evt), false)) := by
  have hguard : (oldPairs.connects.isNone && oldPairs.requests.isNone) = false := by
    rw [hreq]; simp
  have hflush : distributeTraceMetricOn monitor oldPairs (some (newRequestPairs evt snaplen))
      = (mapStore monitor ⟨evt.pid, evt.fd⟩ (newRequestPairs evt snaplen), true) := by
    simp only [distributeTraceMetricOn, distributeTraceMetric, MessagePairs.checkSend,
      hsent, hguard]
    rfl
  have hcond : ((oldPairs.responses.isSome || reqs.isSportChanged evt) = true)
      ↔ (oldPairs.responses.isSome = true ∨ reqs.sport ≠ evt.sport) := by
    simp [Events.isSportChanged]
  by_cases hc : (oldPairs.responses.isSome || reqs.isSportChanged evt) = true
  · have hA : analyseRequest monitor evt snaplen
        = (mapStore monitor ⟨evt.pid, evt.fd⟩ (newRequestPairs evt snaplen), true) := by
      simp only [analyseRequest]
      rw [show (newRequestPairs evt snaplen).getKey = (⟨evt.pid, evt.fd⟩ : FlowKey) from rfl]
      rw [hload]
      simp only [hreq, hc, if_true]
      exact hflush
    refine ⟨⟨fun _ => hcond.mp hc, fun _ => hA⟩, fun hmerge => ?_⟩
    rcases hcond.mp hc with h | h
    · rw [hmerge.1] at h; simp at h
    · exact absurd hmerge.2 h
  · have hc' : (oldPairs.responses.isSome || reqs.isSportChanged evt) = false := by
      cases h : (oldPairs.responses.isSome || reqs.isSportChanged evt)
      · rfl
      · exact absurd h hc
    have hA : analyseRequest monitor evt snaplen
        = (mapStore monitor ⟨evt.pid, evt.fd⟩ (oldPairs.mergeRequest evt), false) := by
      simp only [analyseRequest]
      rw [show (newRequestPairs evt snaplen).getKey = (⟨evt.pid, evt.fd⟩ : FlowKey) from rfl]
      rw [hload]
      simp only [hreq, hc', Bool.false_eq_true, if_false]
    constructor
    · rw [hA]
      constructor
      · intro h
        exact absurd (congrArg Prod.snd h) (by simp)
      · intro h
        exact absurd h (hcond.not.mp (by simp [hc']))
    · intro _
      exact hA

/-- Witness for C3: a second request with a changed sport flushes the
stored single-request state and installs the new one. -/
theorem analyseRequest_fd_reuse_flush_witness :
    analyseRequest monitorC3 evtC3b 1000
      = (mapStore monitorC3 ⟨evtC3b.pid, evtC3b.fd⟩ (newRequestPairs evtC3b 1000), true) := by
  have h := analyseRequest_fd_reuse_flush monitorC3 evtC3b 1000 oldPairsC3
    (newEvents evtC3a 1000) (by decide) (by decide) (by decide)
  exact h.1.mpr (Or.inr (by decide))

/-- Storing a binding makes it loadable. -/
lemma mapLoad_mapStore_self (m : Monitor) (k : FlowKey) (v : MessagePairs) :
    mapLoad (mapStore m k v) k = some v := by
  induction m with
  | nil => simp [mapStore, mapLoad]
  | cons kv rest ih =>
    by_cases h : kv.1 = k
    · simp [mapStore, mapLoad, h]
    · simp [mapStore, mapLoad, h, ih]

/-- After `putRequestBack`, the state's request buffer starts with the
re-inserted buffer's first event. -/
lemma putRequestBack_requests (mps : MessagePairs) (reqs : Events) :
    ∃ merged, (mps.putRequestBack reqs).requests = some merged ∧ merged.event = reqs.event := by
  cases h : mps.requests with
  | none => exact ⟨reqs, by simp [MessagePairs.putRequestBack, h], rfl⟩
  | some r => exact ⟨reqs.prependAll r, by simp [MessagePairs.putRequestBack, h], rfl⟩

/-- C8: when a parsed request's attributes carry the `HttpContinue`
label, `getRecords` emits no record, and re-inserts the request buffer
into the FlowState currently stored under the original `(pid, fd)` key —
so the stored state's requests again start with the re-inserted request
— while a monitor without that key is left unchanged. -/
theorem getRecords_httpContinue_reinserts (monitor : Monitor) (mps : MessagePairs)
    (protocolName : String) (attrs : Attrs) (reqs : Events)
    (hreq : mps.requests = some reqs)
    (hc : attrs.httpContinue = true) :
    ((getRecords monitor mps protocolName (some attrs)).2 = [])
  ∧ (∀ oldPairs, mapLoad monitor ⟨reqs.event.pid, reqs.event.fd⟩ = some oldPairs →
      (getRecords monitor mps protocolName (some attrs)).1
        = mapStore monitor ⟨reqs.event.pid, reqs.event.fd⟩ (oldPairs.putRequestBack reqs)
      ∧ ∃ merged, mapLoad (getRecords monitor mps protocolName (some attrs)).1
            ⟨reqs.event.pid, reqs.event.fd⟩ = some merged
          ∧ ∃ mreqs, merged.requests = some mreqs ∧ mreqs.event = reqs.event)
  ∧ (mapLoad monitor ⟨reqs.event.pid, reqs.event.fd⟩ = none →
      (getRecords monitor mps protocolName (some attrs)).1 = monitor) := by
  have hgrSome : ∀ oldPairs, mapLoad monitor ⟨reqs.event.pid, reqs.event.fd⟩ = some oldPairs →
      getRecords monitor mps protocolName (some attrs)
        = (mapStore monitor ⟨reqs.event.pid, reqs.event.fd⟩ (oldPairs.putRequestBack reqs), []) := by
    intro oldPairs hl
    simp only [getRecords, hreq, hc]
    rw [if_pos (by simp [hc])]
    rw [hl]
  have hgrNone : mapLoad monitor ⟨reqs.event.pid, reqs.event.fd⟩ = none →
      getRecords monitor mps protocolName (some attrs) = (monitor, []) := by
    intro hl
    simp only [getRecords, hreq, hc]
    rw [if_pos (by simp [hc])]
    rw [hl]
  refine ⟨?_, fun oldPairs hl => ?_, fun hl => by rw [hgrNone hl]⟩
  · cases hml : mapLoad monitor ⟨reqs.event.pid, reqs.event.fd⟩ with
    | none => rw [hgrNone hml]
    | some oldPairs => rw [hgrSome oldPairs hml]
  · rw [hgrSome oldPairs hl]
    refine ⟨rfl, ?_⟩
    obtain ⟨merged, hm, hme⟩ := putRequestBack_requests oldPairs reqs
    exact ⟨oldPairs.putRequestBack reqs,
      mapLoad_mapStore_self monitor ⟨reqs.event.pid, reqs.event.fd⟩ (oldPairs.putRequestBack reqs),
      merged, hm, hme⟩

/-- Witness for C8: a concrete `HttpContinue` request yields no record
and the stored state again holds the request's first event. -/
theorem getRecords_httpContinue_reinserts_witness :
    (getRecords monitorC8 mpsC8 "http" (some attrsContinue)).2 = []
  ∧ ∃ merged, mapLoad (getRecords monitorC8 mpsC8 "http" (some attrsContinue)).1
        ⟨(newEvents evtC1 1000).event.pid, (newEvents evtC1 1000).event.fd⟩ = some merged
      ∧ ∃ mreqs, merged.requests = some mreqs ∧ mreqs.event = (newEvents evtC1 1000).event := by
  have h := getRecords_httpContinue_reinserts monitorC8 mpsC8 "http" attrsContinue
    (newEvents evtC1 1000) (by decide) (by decide)
  exact ⟨h.1, (h.2.1 (newRequestPairs evtC3a 1000) (by decide)).2⟩

/-- C6: classification of an emitted record is first-match-wins —
`getConnectFailRecords` (the only connect-fail path) yields
`(true, ConnectFail)`; a record built by `getRecords` carries exactly
the claimed priority classification (parser-set `ProtocolError` kept,
else `NoResponse` for a responseless state, else `NoError`); and a DNS
response that parses carries `isError=true` with `ProtocolError` exactly
when its `rcode` (the low 4 bits of the flags word) is positive. -/
theorem error_classification_first_match (mps : MessagePairs) (monitor : Monitor)
    (protocolName : String) (attributes : Option Attrs) :
    (∀ rec ∈ getConnectFailRecords mps,
        (rec.isError, rec.errorType) = claimedClassification true false mps.responses.isSome)
  ∧ (∀ reqs, mps.requests = some reqs →
      (attributes.map (fun a => a.httpContinue)).getD false = false →
      ∀ rec ∈ (getRecords monitor mps protocolName attributes).2,
        (rec.isError, rec.errorType)
          = claimedClassification false
              ((attributes.map (fun a => a.protocolError)).getD false) mps.responses.isSome)
  ∧ (∀ unpack : List Nat → Nat → Option (String × Nat), ∀ data : List Nat, ∀ offset : Nat,
      ∀ a : DnsResponseAttrs, parseDnsResponse unpack data offset = some a →
      ((a.isError = true ∧ a.errorType = some ErrorKind.protocolError) ↔ 0 < a.dnsRcode)
      ∧ a.dnsRcode = readUInt16D data (offset + 2) % 16) := by
  refine ⟨?_, ?_, ?_⟩
  · intro rec hrec
    simp only [getConnectFailRecords, List.mem_singleton] at hrec
    subst hrec
    simp [claimedClassification]
  · intro reqs hreq hhc rec hrec
    cases attributes with
    | none =>
      simp only [getRecords, hreq, Option.map_none', Option.getD_none, Bool.false_eq_true,
        if_false, List.mem_singleton] at hrec
      subst hrec
      cases hr : mps.responses <;>
        simp [claimedClassification, hr]
    | some a =>
      have ha : a.httpContinue = false := by simpa using hhc
      simp only [getRecords, hreq, Option.map_some', Option.getD_some, ha, Bool.false_eq_true,
        if_false, List.mem_singleton] at hrec
      subst hrec
      cases hp : a.protocolError <;> cases hr : mps.responses <;>
        simp [claimedClassification, hp, hr]
  · intro unpack data offset a h
    simp only [parseDnsResponse] at h
    by_cases hq : readUInt16D data (offset + 4) = 0
    · rw [if_pos hq] at h
      exact absurd h (by simp)
    · rw [if_neg hq] at h
      cases hrq : readQuery unpack data offset (readUInt16D data (offset + 4)) with
      | none =>
        rw [hrq] at h
        exact absurd h (by simp)
      | some domOff =>
        rw [hrq] at h
        injection h with h
        subst h
        constructor
        · by_cases hrc : 0 < readUInt16D data (offset + 2) % 16 <;> simp [hrc]
        · rfl

/-- Witness for C6: a clean no-response record classifies as
`NoResponse`, and a concrete DNS response with rcode 3 carries
`ProtocolError`. -/
theorem error_classification_first_match_witness :
    (∀ rec ∈ (getRecords monitorC8 mpsC6 "http" (some attrsClean)).2,
      (rec.isError, rec.errorType)
        = claimedClassification false
            ((Option.map (fun a => a.protocolError) (some attrsClean)).getD false)
            mpsC6.responses.isSome)
  ∧ ∃ a, parseDnsResponse unpackC6 dataC6 0 = some a
      ∧ ((a.isError = true ∧ a.errorType = some ErrorKind.protocolError) ↔ 0 < a.dnsRcode) := by
  have h := error_classification_first_match mpsC6 monitorC8 "http" (some attrsClean)
  refine ⟨h.2.1 (newEvents evtC1 1000) (by decide) (by decide), ?_⟩
  exact ⟨dnsAttrsC6, by decide,
    (h.2.2 unpackC6 dataC6 0 dnsAttrsC6 (by decide)).1⟩

/-- C7: a statically mapped destination port short-circuits protocol
resolution in `parseProtocols` — the result never depends on (nor
mutates) the port-cache state, so the cached-parser and full-scan steps
are never reached; a requestless state yields the single ConnectFail
record; otherwise the mapped parser's records are returned on parse
success, and a record labeled with the static protocol but without
parsed attributes is returned when the parser fails or is not
registered. -/
theorem static_port_mapping_priority (na : NetworkAnalyzerM) (monitor : Monitor)
    (fs : FactoryState) (mps : MessagePairs) (staticProtocol : String)
    (hstatic : lookupPort na.staticPortMap mps.getPort = some staticProtocol) :
    (parseProtocols na monitor fs mps).2.1 = fs
  ∧ (∀ fs2 : FactoryState,
      (parseProtocols na monitor fs2 mps).1 = (parseProtocols na monitor fs mps).1)
  ∧ (mps.requests = none →
      (parseProtocols na monitor fs mps).1 = getConnectFailRecords mps
      ∧ (getConnectFailRecords mps).length = 1)
  ∧ (mps.requests.isSome = true →
      (∀ parser, lookupProtocol na.protocolMap staticProtocol = some parser →
        (∀ records, parser.run = some records →
          (parseProtocols na monitor fs mps).1 = records)
        ∧ (parser.run = none →
            (parseProtocols na monitor fs mps).1 = (getRecords monitor mps staticProtocol none).2))
      ∧ (lookupProtocol na.protocolMap staticProtocol = none →
          (parseProtocols na monitor fs mps).1 = (getRecords monitor mps staticProtocol none).2)) := by
  cases hreqcase : mps.requests with
  | none =>
    have heq : ∀ fs' : FactoryState, parseProtocols na monitor fs' mps
        = (getConnectFailRecords mps, fs', monitor) := by
      intro fs'
      simp [parseProtocols, hstatic, hreqcase]
    refine ⟨by rw [heq fs], fun fs2 => by rw [heq fs2, heq fs],
      fun _ => ⟨by rw [heq fs], rfl⟩, fun hs => absurd hs (by simp)⟩
  | some reqs =>
    have hfour : ∀ parser, lookupProtocol na.protocolMap staticProtocol = some parser →
        ((∀ records, parser.run = some records →
          ∀ fs' : FactoryState, parseProtocols na monitor fs' mps = (records, fs', monitor))
        ∧ (parser.run = none →
          ∀ fs' : FactoryState, parseProtocols na monitor fs' mps
            = ((getRecords monitor mps staticProtocol none).2, fs',
               (getRecords monitor mps staticProtocol none).1))) := by
      intro parser hlp
      constructor
      · intro records hrun fs'
        simp [parseProtocols, hstatic, hreqcase, hlp, hrun]
      · intro hrun fs'
        simp [parseProtocols, hstatic, hreqcase, hlp, hrun]
    have hnolp : lookupProtocol na.protocolMap staticProtocol = none →
        ∀ fs' : FactoryState, parseProtocols na monitor fs' mps
          = ((getRecords monitor mps staticProtocol none).2, fs',
             (getRecords monitor mps staticProtocol none).1) := by
      intro hlp fs'
      simp [parseProtocols, hstatic, hreqcase, hlp]
    have hsnd : (parseProtocols na monitor fs mps).2.1 = fs := by
      cases hlp : lookupProtocol na.protocolMap staticProtocol with
      | none => rw [hnolp hlp fs]
      | some parser =>
        cases hrun : parser.run with
        | none => rw [((hfour parser hlp).2 hrun) fs]
        | some records => rw [((hfour parser hlp).1 records hrun) fs]
    have hind : ∀ fs2 : FactoryState,
        (parseProtocols na monitor fs2 mps).1 = (parseProtocols na monitor fs mps).1 := by
      intro fs2
      cases hlp : lookupProtocol na.protocolMap staticProtocol with
      | none => rw [hnolp hlp fs2, hnolp hlp fs]
      | some parser =>
        cases hrun : parser.run with
        | none => rw [((hfour parser hlp).2 hrun) fs2, ((hfour parser hlp).2 hrun) fs]
        | some records =>
          rw [((hfour parser hlp).1 records hrun) fs2, ((hfour parser hlp).1 records hrun) fs]
    refine ⟨hsnd, hind, fun hrn => Option.noConfusion hrn,
      fun _ => ⟨fun parser hlp => ⟨fun records hrun => ?_, fun hrun => ?_⟩, fun hlp => ?_⟩⟩
    · rw [((hfour parser hlp).1 records hrun) fs]
    · rw [((hfour parser hlp).2 hrun) fs]
    · rw [hnolp hlp fs]

/-- Witness for C7: the static mapping of port 80 returns the registered
parser's records and leaves the factory state untouched. -/
theorem static_port_mapping_priority_witness :
    (parseProtocols naC7 [] fsC7 mpsC6).2.1 = fsC7
  ∧ (parseProtocols naC7 [] fsC7 mpsC6).1 = [⟨"http", false, ErrorKind.noError⟩] := by
  have h := static_port_mapping_priority naC7 [] fsC7 mpsC6 "http" (by decide)
  refine ⟨h.1, ?_⟩
  have h4 := (h.2.2.2 (by decide)).1 ⟨"http", some [⟨"http", false, ErrorKind.noError⟩]⟩
    (by decide)
  exact h4.1 [⟨"http", false, ErrorKind.noError⟩] (by decide)

/-- Lemma: `AddPortCount` returns the incremented counter. -/
lemma addPortCount_fst (counts : List (String × Nat)) (nm : String) :
    (addPortCount counts nm).1 = countOf counts nm + 1 := by
  induction counts with
  | nil => rfl
  | cons kv rest ih =>
    by_cases h : kv.1 = nm
    · simp [addPortCount, countOf, h]
    · simp [addPortCount, countOf, h, ih]

/-- Lemma: `AddPortCount` stores the incremented counter. -/
lemma countOf_addPortCount (counts : List (String × Nat)) (nm : String) :
    countOf (addPortCount counts nm).2 nm = countOf counts nm + 1 := by
  induction counts with
  | nil => simp [addPortCount, countOf]
  | cons kv rest ih =>
    by_cases h : kv.1 = nm
    · simp [addPortCount, countOf, h]
    · simp [addPortCount, countOf, h, ih]

/-- Lemma: `ResetPort` zeroes the stored counter. -/
lemma countOf_resetPort (counts : List (String × Nat)) (nm : String) :
    countOf (resetPort counts nm) nm = 0 := by
  induction counts with
  | nil => rfl
  | cons kv rest ih =>
    by_cases h : kv.1 = nm
    · simp [resetPort, countOf, h]
    · simp [resetPort, countOf, h, ih]

/-- C5: in the full-scan step the winning parser's per-port counter is
incremented and the parser is installed into the port cache exactly when
the counter reaches `CACHE_ADD_THRESHOLD` (50); in the cached-parsers
step a winning no-support sentinel's counter is incremented and, exactly
when it reaches `CACHE_RESET_THRESHOLD` (5000), the counter is reset to
0 and the sentinel evicted from the port cache (any other winning cached
parser leaves the factory state untouched). -/
theorem cache_feedback_thresholds (fs : FactoryState) (ps : List ProtocolParserM) :
    (∀ records fs2, runFullScanStep fs ps = some (records, fs2) →
      ∃ p, p ∈ ps ∧ p.run = some records
        ∧ countOf fs2.counts p.protocolName = countOf fs.counts p.protocolName + 1
        ∧ fs2.cachedParsers
            = (if countOf fs.counts p.protocolName + 1 = CACHE_ADD_THRESHOLD
               then fs.cachedParsers ++ [p] else fs.cachedParsers))
  ∧ (∀ records fs2, runCachedStep fs ps = some (records, fs2) →
      ∃ p, p ∈ ps ∧ p.run = some records
        ∧ (p.protocolName = NOSUPPORT →
            countOf fs2.counts NOSUPPORT
              = (if countOf fs.counts NOSUPPORT + 1 = CACHE_RESET_THRESHOLD then 0
                 else countOf fs.counts NOSUPPORT + 1)
            ∧ fs2.cachedParsers
              = (if countOf fs.counts NOSUPPORT + 1 = CACHE_RESET_THRESHOLD
                 then removeCachedParser fs.cachedParsers NOSUPPORT else fs.cachedParsers))
        ∧ (p.protocolName ≠ NOSUPPORT → fs2 = fs)) := by
  constructor
  · induction ps with
    | nil =>
      intro records fs2 h
      exact absurd h (by simp [runFullScanStep])
    | cons p rest ih =>
      intro records fs2 h
      cases hrun : p.run with
      | none =>
        simp only [runFullScanStep, hrun] at h
        obtain ⟨q, hq, hrest⟩ := ih records fs2 h
        exact ⟨q, List.mem_cons_of_mem p hq, hrest⟩
      | some rs =>
        simp only [runFullScanStep, hrun] at h
        by_cases hth : (addPortCount fs.counts p.protocolName).1 = CACHE_ADD_THRESHOLD
        · rw [if_pos hth] at h
          injection h with h
          injection h with h1 h2
          subst h1
          subst h2
          refine ⟨p, List.mem_cons_self p rest, hrun, countOf_addPortCount _ _, ?_⟩
          rw [if_pos (by rw [← addPortCount_fst fs.counts p.protocolName]; exact hth)]
        · rw [if_neg hth] at h
          injection h with h
          injection h with h1 h2
          subst h1
          subst h2
          refine ⟨p, List.mem_cons_self p rest, hrun, countOf_addPortCount _ _, ?_⟩
          rw [if_neg (by rw [← addPortCount_fst fs.counts p.protocolName]; exact hth)]
  · induction ps with
    | nil =>
      intro records fs2 h
      exact absurd h (by simp [runCachedStep])
    | cons p rest ih =>
      intro records fs2 h
      cases hrun : p.run with
      | none =>
        simp only [runCachedStep, hrun] at h
        obtain ⟨q, hq, hrest⟩ := ih records fs2 h
        exact ⟨q, List.mem_cons_of_mem p hq, hrest⟩
      | some rs =>
        simp only [runCachedStep, hrun] at h
        by_cases hns : p.protocolName = NOSUPPORT
        · rw [if_pos hns] at h
          by_cases hth : (addPortCount fs.counts p.protocolName).1 = CACHE_RESET_THRESHOLD
          · rw [if_pos hth] at h
            injection h with h
            injection h with h1 h2
            subst h1
            subst h2
            have hth' : countOf fs.counts NOSUPPORT + 1 = CACHE_RESET_THRESHOLD := by
              rw [← hns, ← addPortCount_fst fs.counts p.protocolName]; exact hth
            refine ⟨p, List.mem_cons_self p rest, hrun, fun _ => ⟨?_, ?_⟩, fun hc => absurd hns hc⟩
            · rw [if_pos hth', hns, countOf_resetPort]
            · rw [if_pos hth', hns]
          · rw [if_neg hth] at h
            injection h with h
            injection h with h1 h2
            subst h1
            subst h2
            have hth' : ¬(countOf fs.counts NOSUPPORT + 1 = CACHE_RESET_THRESHOLD) := by
              rw [← hns, ← addPortCount_fst fs.counts p.protocolName]; exact hth
            refine ⟨p, List.mem_cons_self p rest, hrun, fun _ => ⟨?_, ?_⟩, fun hc => absurd hns hc⟩
            · rw [if_neg hth', ← hns, countOf_addPortCount]
            · rw [if_neg hth']
        · rw [if_neg hns] at h
          injection h with h
          injection h with h1 h2
          subst h1
          subst h2
          exact ⟨p, List.mem_cons_self p rest, hrun, fun hc => absurd hc hns, fun _ => rfl⟩

/-- Witness for C5: a parser whose counter stands at 49 is installed on
its 50th success by the full-scan step. -/
theorem cache_feedback_thresholds_witness :
    ∃ p, p ∈ [parserC5] ∧ p.run = some []
      ∧ countOf fsC5out.counts p.protocolName = countOf fsC5.counts p.protocolName + 1
      ∧ fsC5out.cachedParsers
          = (if countOf fsC5.counts p.protocolName + 1 = CACHE_ADD_THRESHOLD
             then fsC5.cachedParsers ++ [p] else fsC5.cachedParsers) :=
  (cache_feedback_thresholds fsC5 [parserC5]).1 [] fsC5out (by decide)

/-- The request loop preserves length. -/
lemma parseAllRequests_length (pr : List Nat → Option DnsAttrs) :
    ∀ {l : List Event} {r : List DnsAttrs}, parseAllRequests pr l = some r →
      r.length = l.length := by
  intro l
  induction l with
  | nil =>
    intro r h
    injection h with h
    subst h
    rfl
  | cons e rest ih =>
    intro r h
    simp only [parseAllRequests] at h
    cases he : pr e.data with
    | none => rw [he] at h; exact Option.noConfusion h
    | some a =>
      rw [he] at h
      cases ht : parseAllRequests pr rest with
      | none => rw [ht] at h; exact Option.noConfusion h
      | some tl =>
        rw [ht] at h
        injection h with h
        subst h
        simp [ih ht]

/-- Each parsed request attribute comes from parsing that request's
payload. -/
lemma parseAllRequests_getD (pr : List Nat → Option DnsAttrs) :
    ∀ {l : List Event} {r : List DnsAttrs}, parseAllRequests pr l = some r →
      ∀ i, i < l.length →
        pr ((l.getD i defaultEvent).data) = some (r.getD i defaultDnsAttrs) := by
  intro l
  induction l with
  | nil =>
    intro r h i hi
    simp at hi
  | cons e rest ih =>
    intro r h i hi
    simp only [parseAllRequests] at h
    cases he : pr e.data with
    | none => rw [he] at h; exact Option.noConfusion h
    | some a =>
      rw [he] at h
      cases ht : parseAllRequests pr rest with
      | none => rw [ht] at h; exact Option.noConfusion h
      | some tl =>
        rw [ht] at h
        injection h with h
        subst h
        cases i with
        | zero => simpa using he
        | succ j =>
          have hj : j < rest.length := by simpa using hi
          simpa using ih ht j hj

/-- The indexed scan of `dnsPair` returns `-1` or the first index whose
id and domain both match, shifted by the start index: the returned index
matches and every earlier index does not. -/
lemma dnsPairAux_spec (response : DnsAttrs) :
    ∀ (reqs : List DnsAttrs) (k : Nat),
      dnsPairAux response reqs k = -1 ∨
      ∃ i, i < reqs.length ∧ dnsPairAux response reqs k = ((k + i : Nat) : Int)
        ∧ (reqs.getD i defaultDnsAttrs).dnsId = response.dnsId
        ∧ (reqs.getD i defaultDnsAttrs).dnsDomain = response.dnsDomain
        ∧ ∀ j, j < i →
            ¬((reqs.getD j defaultDnsAttrs).dnsId = response.dnsId ∧
              (reqs.getD j defaultDnsAttrs).dnsDomain = response.dnsDomain) := by
  intro reqs
  induction reqs with
  | nil => intro k; left; rfl
  | cons req rest ih =>
    intro k
    by_cases h : req.dnsId = response.dnsId ∧ req.dnsDomain = response.dnsDomain
    · right
      exact ⟨0, by simp, by simp [dnsPairAux, h], by simpa using h.1, by simpa using h.2,
        fun j hj => absurd hj (by omega)⟩
    · rcases ih (k + 1) with h1 | ⟨i, hi, heq, hid, hdom, hmin⟩
      · left
        simp [dnsPairAux, h, h1]
      · right
        refine ⟨i + 1, by simp only [List.length_cons]; omega, ?_,
          by simpa using hid, by simpa using hdom, ?_⟩
        · rw [show dnsPairAux response (req :: rest) k = dnsPairAux response rest (k + 1) from
            by simp [dnsPairAux, h]]
          rw [heq]
          omega
        · intro j hj
          cases j with
          | zero => simpa using h
          | succ j2 =>
            have hj2 : j2 < i := by omega
            simpa using hmin j2 hj2

/-- A non-`-1` result of `dnsPair` is the index of the first request
matching the response's id and domain. -/
lemma dnsPair_spec (reqs : List DnsAttrs) (response : DnsAttrs)
    (h : dnsPair reqs response ≠ -1) :
    ∃ i, i < reqs.length ∧ dnsPair reqs response = (i : Int)
      ∧ (reqs.getD i defaultDnsAttrs).dnsId = response.dnsId
      ∧ (reqs.getD i defaultDnsAttrs).dnsDomain = response.dnsDomain
      ∧ ∀ j, j < i →
          ¬((reqs.getD j defaultDnsAttrs).dnsId = response.dnsId ∧
            (reqs.getD j defaultDnsAttrs).dnsDomain = response.dnsDomain) := by
  rcases dnsPairAux_spec response reqs 0 with h1 | ⟨i, hi, heq, hid, hdom, hmin⟩
  · exact absurd h1 h
  · exact ⟨i, hi, by simpa using heq, hid, hdom, hmin⟩

/-- When no request's parsed attributes match the response, the indexed
scan of `dnsPair` returns `-1` from any start index. -/
lemma dnsPairAux_eq_neg_one (response : DnsAttrs) :
    ∀ (reqs : List DnsAttrs),
      (∀ j, j < reqs.length →
        ¬((reqs.getD j defaultDnsAttrs).dnsId = response.dnsId ∧
          (reqs.getD j defaultDnsAttrs).dnsDomain = response.dnsDomain)) →
      ∀ k, dnsPairAux response reqs k = -1 := by
  intro reqs
  induction reqs with
  | nil => intro _ k; rfl
  | cons req rest ih =>
    intro h k
    have h0 := h 0 (by simp)
    simp only [List.getD_cons_zero] at h0
    simp only [dnsPairAux, if_neg h0]
    exact ih (fun j hj => by simpa using h (j + 1) (by simpa using Nat.succ_lt_succ hj)) (k + 1)

/-- When no request's parsed attributes match the response, `dnsPair`
returns `-1`. -/
lemma dnsPair_eq_neg_one (reqs : List DnsAttrs) (response : DnsAttrs)
    (h : ∀ j, j < reqs.length →
      ¬((reqs.getD j defaultDnsAttrs).dnsId = response.dnsId ∧
        (reqs.getD j defaultDnsAttrs).dnsDomain = response.dnsDomain)) :
    dnsPair reqs response = -1 :=
  dnsPairAux_eq_neg_one response reqs h 0

/-- The response loop only emits records pairing a response with a
soundly matching request — in fact with the first matching request —
and every matched index has a paired record for its request. -/
lemma parseRespLoop_invariant (pr ps : List Nat → Option DnsAttrs)
    (parsedReqMsgs : List DnsAttrs) (requests : List Event)
    (hlen : parsedReqMsgs.length = requests.length)
    (hrel : ∀ i, i < requests.length →
      pr ((requests.getD i defaultEvent).data) = some (parsedReqMsgs.getD i defaultDnsAttrs)) :
    ∀ (resps : List Event) (matched : List Nat) (acc : List SinglePairRecord)
      (out : List Nat × List SinglePairRecord),
      parseRespLoop ps dnsPair parsedReqMsgs requests resps matched acc = some out →
      (∀ rec ∈ acc, soundPairing pr ps rec) →
      (∀ rec ∈ acc, firstMatchPairing pr ps requests rec) →
      (∀ j ∈ matched, ∃ rec ∈ acc, rec.response.isSome = true
        ∧ rec.request = requests.getD j defaultEvent) →
      ((∀ rec ∈ out.2, soundPairing pr ps rec)
       ∧ (∀ rec ∈ out.2, firstMatchPairing pr ps requests rec)
       ∧ (∀ j ∈ out.1, ∃ rec ∈ out.2, rec.response.isSome = true
            ∧ rec.request = requests.getD j defaultEvent)) := by
  intro resps
  induction resps with
  | nil =>
    intro matched acc out h hacc hfst hmat
    simp only [parseRespLoop] at h
    injection h with h
    subst h
    exact ⟨hacc, hfst, hmat⟩
  | cons resp rest ih =>
    intro matched acc out h hacc hfst hmat
    cases hps : ps resp.data with
    | none => simp [parseRespLoop, hps] at h
    | some respAttrs =>
      simp only [parseRespLoop, hps] at h
      by_cases hm1 : dnsPair parsedReqMsgs respAttrs = -1
      · rw [if_pos hm1] at h
        exact Option.noConfusion h
      · rw [if_neg hm1] at h
        obtain ⟨i, hi, heq, hid, hdom, hmin⟩ := dnsPair_spec parsedReqMsgs respAttrs hm1
        have hidx : (dnsPair parsedReqMsgs respAttrs).toNat = i := by
          rw [heq]
          exact Int.toNat_natCast i
        have hi' : i < requests.length := hlen ▸ hi
        have hnewSound : soundPairing pr ps
            ⟨requests.getD (dnsPair parsedReqMsgs respAttrs).toNat defaultEvent,
             some resp, respAttrs⟩ := by
          intro r hr
          injection hr with hr
          subst hr
          refine ⟨parsedReqMsgs.getD i defaultDnsAttrs, ?_, hps, hid, hdom⟩
          show pr ((requests.getD (dnsPair parsedReqMsgs respAttrs).toNat defaultEvent).data)
              = some (parsedReqMsgs.getD i defaultDnsAttrs)
          rw [hidx]
          exact hrel i hi'
        have hnewFirst : firstMatchPairing pr ps requests
            ⟨requests.getD (dnsPair parsedReqMsgs respAttrs).toNat defaultEvent,
             some resp, respAttrs⟩ := by
          intro r hr
          injection hr with hr
          subst hr
          refine ⟨respAttrs, hps, rfl, i, hi', ?_, ⟨parsedReqMsgs.getD i defaultDnsAttrs,
            hrel i hi', hid, hdom⟩, ?_⟩
          · show requests.getD (dnsPair parsedReqMsgs respAttrs).toNat defaultEvent
                = requests.getD i defaultEvent
            rw [hidx]
          · intro j hj reqAttrs hpr
            have hj' : j < requests.length := Nat.lt_trans hj hi'
            have hj2 := hrel j hj'
            rw [hpr] at hj2
            injection hj2 with hj2
            rw [hj2]
            exact hmin j hj
        refine ih _ _ out h ?_ ?_ ?_
        · intro rec hrec
          rcases List.mem_append.mp hrec with h1 | h1
          · exact hacc rec h1
          · rw [List.mem_singleton.mp h1]
            exact hnewSound
        · intro rec hrec
          rcases List.mem_append.mp hrec with h1 | h1
          · exact hfst rec h1
          · rw [List.mem_singleton.mp h1]
            exact hnewFirst
        · intro j hj
          rcases List.mem_append.mp hj with h1 | h1
          · obtain ⟨rec, hrec, hrs, hreq⟩ := hmat j h1
            exact ⟨rec, List.mem_append_left _ hrec, hrs, hreq⟩
          · rw [List.mem_singleton.mp h1]
            exact ⟨⟨requests.getD (dnsPair parsedReqMsgs respAttrs).toNat defaultEvent,
              some resp, respAttrs⟩, List.mem_append_right _ (List.mem_singleton.mpr rfl),
              rfl, rfl⟩

/-- A response whose payload fails to parse makes the whole loop fail. -/
lemma parseRespLoop_fail (ps : List Nat → Option DnsAttrs)
    (pm : List DnsAttrs → DnsAttrs → Int) (parsedReqMsgs : List DnsAttrs)
    (requests : List Event) :
    ∀ (resps : List Event) (matched : List Nat) (acc : List SinglePairRecord),
      (∃ r ∈ resps, ps r.data = none) →
      parseRespLoop ps pm parsedReqMsgs requests resps matched acc = none := by
  intro resps
  induction resps with
  | nil =>
    intro matched acc h
    rcases h with ⟨r, hr, _⟩
    simp at hr
  | cons resp rest ih =>
    intro matched acc h
    cases hps : ps resp.data with
    | none => simp [parseRespLoop, hps]
    | some respAttrs =>
      by_cases hm1 : pm parsedReqMsgs respAttrs = -1
      · simp [parseRespLoop, hps, hm1]
      · rw [show parseRespLoop ps pm parsedReqMsgs requests (resp :: rest) matched acc
            = parseRespLoop ps pm parsedReqMsgs requests rest
                (matched ++ [(pm parsedReqMsgs respAttrs).toNat])
                (acc ++ [⟨requests.getD (pm parsedReqMsgs respAttrs).toNat defaultEvent,
                  some resp, respAttrs⟩]) from by simp [parseRespLoop, hps, hm1]]
        apply ih
        rcases h with ⟨r, hr, hnone⟩
        rcases List.mem_cons.mp hr with h1 | h1
        · subst h1
          rw [hps] at hnone
          exact Option.noConfusion hnone
        · exact ⟨r, h1, hnone⟩

/-- A response that parses but that `dnsPair` matches to no request
makes the whole loop fail. -/
lemma parseRespLoop_fail_nomatch (ps : List Nat → Option DnsAttrs)
    (parsedReqMsgs : List DnsAttrs) (requests : List Event) :
    ∀ (resps : List Event) (matched : List Nat) (acc : List SinglePairRecord),
      (∃ r ∈ resps, ∃ a, ps r.data = some a ∧ dnsPair parsedReqMsgs a = -1) →
      parseRespLoop ps dnsPair parsedReqMsgs requests resps matched acc = none := by
  intro resps
  induction resps with
  | nil =>
    intro matched acc h
    rcases h with ⟨r, hr, _⟩
    simp at hr
  | cons resp rest ih =>
    intro matched acc h
    cases hps : ps resp.data with
    | none => simp [parseRespLoop, hps]
    | some respAttrs =>
      by_cases hm1 : dnsPair parsedReqMsgs respAttrs = -1
      · simp [parseRespLoop, hps, hm1]
      · rw [show parseRespLoop ps dnsPair parsedReqMsgs requests (resp :: rest) matched acc
            = parseRespLoop ps dnsPair parsedReqMsgs requests rest
                (matched ++ [(dnsPair parsedReqMsgs respAttrs).toNat])
                (acc ++ [⟨requests.getD (dnsPair parsedReqMsgs respAttrs).toNat defaultEvent,
                  some resp, respAttrs⟩]) from by simp [parseRespLoop, hps, hm1]]
        apply ih
        rcases h with ⟨r, hr, a, hpa, hnm⟩
        rcases List.mem_cons.mp hr with h1 | h1
        · subst h1
          rw [hps] at hpa
          injection hpa with hpa
          subst hpa
          exact absurd hnm hm1
        · exact ⟨r, h1, a, hpa, hnm⟩

/-- Records of the 498 loop carry no response. -/
lemma unmatchedRequestRecords_response_none (requests : List Event)
    (parsedReqMsgs : List DnsAttrs) (matched : List Nat) (rec : SinglePairRecord)
    (h : rec ∈ unmatchedRequestRecords requests parsedReqMsgs matched) :
    rec.response = none := by
  simp only [unmatchedRequestRecords, List.mem_filterMap] at h
  obtain ⟨i, _, hi⟩ := h
  by_cases hm : i ∈ matched
  · rw [if_pos hm] at hi
    exact Option.noConfusion hi
  · rw [if_neg hm] at hi
    injection hi with hi
    subst hi
    rfl

/-- Every in-range unmatched index contributes its no-response record. -/
lemma unmatchedRequestRecords_mem (requests : List Event)
    (parsedReqMsgs : List DnsAttrs) (matched : List Nat) (i : Nat)
    (h1 : i < requests.length) (h2 : i ∉ matched) :
    (⟨requests.getD i defaultEvent, none, parsedReqMsgs.getD i defaultDnsAttrs⟩
      : SinglePairRecord) ∈ unmatchedRequestRecords requests parsedReqMsgs matched := by
  simp only [unmatchedRequestRecords, List.mem_filterMap]
  exact ⟨i, List.mem_range.mpr h1, by rw [if_neg h2]⟩

/-- C4 counterexample: a DNS-over-TCP state with one request (id 1) and
one response (id 2) has every response parse successfully, yet
`parseMultipleRequests` abandons the whole state (returns `nil`) because
the response matches no request — no no-response record is emitted for
the unmatched request, and `nil` is returned without any response
failing to parse. -/
theorem dns_unmatched_response_abandons_state :
    (∀ r ∈ [respEvtC4], (tinyDnsDecode r.data).isSome = true)
  ∧ parseMultipleRequests tinyDnsDecode tinyDnsDecode dnsPair [reqEvtC4]
      (some [respEvtC4]) = none := by
  constructor
  · decide
  · decide

/-- C4 (amended): under the DNS `PairMatch`, when `parseMultipleRequests`
returns records, every emitted paired record pairs a request with a
response only if their parsed `dnsId` and `dnsDomain` agree — indeed the
response is paired with the first request whose parsed attributes match
— and every request paired by no emitted record is emitted as a
no-response record; the whole state is abandoned (`nil`) whenever any
response fails to parse, and also — beyond the original claim — whenever
any response parses but matches no request of the state. -/
theorem dns_pair_matching_amended (pr ps : List Nat → Option DnsAttrs)
    (requests responses : List Event) :
    (∀ records, parseMultipleRequests pr ps dnsPair requests (some responses) = some records →
      (∀ rec ∈ records, soundPairing pr ps rec)
      ∧ (∀ rec ∈ records, firstMatchPairing pr ps requests rec)
      ∧ (∀ i, i < requests.length →
          (∀ rec ∈ records, rec.response.isSome = true →
            rec.request ≠ requests.getD i defaultEvent) →
          ∃ a, pr ((requests.getD i defaultEvent).data) = some a ∧
            (⟨requests.getD i defaultEvent, none, a⟩ : SinglePairRecord) ∈ records))
  ∧ ((∃ r ∈ responses, ps r.data = none) →
      parseMultipleRequests pr ps dnsPair requests (some responses) = none)
  ∧ ((∃ r ∈ responses, ∃ a, ps r.data = some a ∧
        ∀ j, j < requests.length →
          ∀ reqAttrs, pr ((requests.getD j defaultEvent).data) = some reqAttrs →
            ¬(reqAttrs.dnsId = a.dnsId ∧ reqAttrs.dnsDomain = a.dnsDomain)) →
      parseMultipleRequests pr ps dnsPair requests (some responses) = none) := by
  refine ⟨?_, ?_, ?_⟩
  · intro records h
    cases hpar : parseAllRequests pr requests with
    | none => simp [parseMultipleRequests, hpar] at h
    | some parsedReqMsgs =>
      simp only [parseMultipleRequests, hpar] at h
      cases hloop : parseRespLoop ps dnsPair parsedReqMsgs requests responses [] [] with
      | none => rw [hloop] at h; exact Option.noConfusion h
      | some out =>
        rw [hloop] at h
        injection h with h
        subst h
        have hlen := parseAllRequests_length pr hpar
        have hrel := parseAllRequests_getD pr hpar
        obtain ⟨hsound, hfirst, hmatched⟩ := parseRespLoop_invariant pr ps parsedReqMsgs
          requests hlen hrel responses [] [] out hloop (by simp) (by simp) (by simp)
        refine ⟨?_, ?_, ?_⟩
        · intro rec hrec
          rcases List.mem_append.mp hrec with h1 | h1
          · exact hsound rec h1
          · intro r hr
            rw [unmatchedRequestRecords_response_none requests parsedReqMsgs out.1 rec h1] at hr
            exact Option.noConfusion hr
        · intro rec hrec
          rcases List.mem_append.mp hrec with h1 | h1
          · exact hfirst rec h1
          · intro r hr
            rw [unmatchedRequestRecords_response_none requests parsedReqMsgs out.1 rec h1] at hr
            exact Option.noConfusion hr
        · intro i hi hno
          by_cases hmem : i ∈ out.1
          · obtain ⟨rec, hrec, hrs, hreq⟩ := hmatched i hmem
            exact absurd hreq (hno rec (List.mem_append_left _ hrec) hrs)
          · exact ⟨parsedReqMsgs.getD i defaultDnsAttrs, hrel i hi,
              List.mem_append_right _
                (unmatchedRequestRecords_mem requests parsedReqMsgs out.1 i hi hmem)⟩
  · intro hex
    cases hpar : parseAllRequests pr requests with
    | none => simp [parseMultipleRequests, hpar]
    | some parsedReqMsgs =>
      simp only [parseMultipleRequests, hpar]
      rw [parseRespLoop_fail ps dnsPair parsedReqMsgs requests responses [] [] hex]
  · intro hex
    cases hpar : parseAllRequests pr requests with
    | none => simp [parseMultipleRequests, hpar]
    | some parsedReqMsgs =>
      simp only [parseMultipleRequests, hpar]
      have hlen := parseAllRequests_length pr hpar
      have hrel := parseAllRequests_getD pr hpar
      rcases hex with ⟨r, hr, a, hpa, hnm⟩
      have hpair : dnsPair parsedReqMsgs a = -1 := by
        apply dnsPair_eq_neg_one
        intro j hj
        have hj' : j < requests.length := hlen ▸ hj
        exact hnm j hj' (parsedReqMsgs.getD j defaultDnsAttrs) (hrel j hj')
      rw [parseRespLoop_fail_nomatch ps parsedReqMsgs requests responses [] []
        ⟨r, hr, a, hpa, hpair⟩]

/-- Witness for C4's amended theorem: in the two-request scenario the
id-2 response pairs soundly with the first matching request, the
unmatched id-1 request is emitted as a no-response record, and an id-3
response that parses but matches neither request abandons the state. -/
theorem dns_pair_matching_amended_witness :
    (∀ rec ∈ recordsC4, soundPairing tinyDnsDecode tinyDnsDecode rec)
  ∧ (∀ rec ∈ recordsC4, firstMatchPairing tinyDnsDecode tinyDnsDecode [reqEvtA, reqEvtB] rec)
  ∧ (∃ a, tinyDnsDecode (([reqEvtA, reqEvtB].getD 0 defaultEvent).data) = some a ∧
      (⟨[reqEvtA, reqEvtB].getD 0 defaultEvent, none, a⟩ : SinglePairRecord) ∈ recordsC4)
  ∧ parseMultipleRequests tinyDnsDecode tinyDnsDecode dnsPair [reqEvtA, reqEvtB]
      (some [respEvtNoMatchC4]) = none := by
  have h := (dns_pair_matching_amended tinyDnsDecode tinyDnsDecode [reqEvtA, reqEvtB]
    [respEvtB]).1 recordsC4 (by decide)
  refine ⟨h.1, h.2.1, h.2.2 0 (by decide) (by decide), ?_⟩
  apply (dns_pair_matching_amended tinyDnsDecode tinyDnsDecode [reqEvtA, reqEvtB]
    [respEvtNoMatchC4]).2.2
  refine ⟨respEvtNoMatchC4, by decide, ⟨3, "q"⟩, by decide, ?_⟩
  intro j hj reqAttrs hreq
  have hcase : j = 0 ∨ j = 1 := by
    simp only [List.length_cons, List.length_nil] at hj
    omega
  rcases hcase with h0 | h0 <;> subst h0
  · injection hreq with hreq
    subst hreq
    decide
  · injection hreq with hreq
    subst hreq
    decide

end Kindling
